import Mathlib

/-!
Verification of the galette fuse-map synthesizer core (`gal_builder.rs`,
`olmc.rs`) against its specification.  The data model of the external
collaborators (`chips.rs`, `gal.rs`, `blueprint.rs`, `errors.rs`) is not part
of the sources; those parts are modelled from the specification and marked as
such.  The functions of `gal_builder.rs` and `olmc.rs` are translated
directly from the Rust source.  Bit planes of the GAL (fuse rows, xor, sig,
ac1, s1, pt) are modelled as total functions from `Nat`; indexing panics of
the Rust `Vec` accesses are modelled explicitly (as `Option`) only in
`get_mode_v8`, where a claim depends on them.
-/

namespace Galette

/-- Modelled from the spec: the `Chip` enumeration of `chips.rs` (not in the
sources), the four supported GAL variants. -/
inductive Chip
  | GAL16V8
  | GAL20V8
  | GAL22V10
  | GAL20RA10
deriving DecidableEq

/-- Modelled from the spec: the three operating modes of the V8 family
(`gal.rs` / `jedec.rs`, not in the sources). -/
inductive Mode
  | Mode1
  | Mode2
  | Mode3
deriving DecidableEq

/-- Modelled from the spec: `PinMode` of `blueprint.rs` (not in the
sources). -/
inductive PinMode
  | Combinatorial
  | Tristate
  | Registered
deriving DecidableEq

/-- Modelled from the spec: `Active` of `blueprint.rs` (not in the
sources), the output polarity. -/
inductive Active
  | Low
  | High
deriving DecidableEq

/-- Modelled from the spec: a `Term` (sum-of-products, `gal.rs`, not in the
sources): an ordered sequence of product rows, each row a set of literals
(abstracted as natural numbers), plus a source line number. -/
structure Term where
  line_num : Nat
  pins : List (List Nat)
deriving DecidableEq

/-- Modelled from the spec: the row-range descriptor `Bounds` of `gal.rs`
(not in the sources). -/
structure Bounds where
  start_row : Nat
  max_row : Nat
  row_offset : Nat
deriving DecidableEq

/-- Modelled from the spec: the error codes raised by the core
(`errors.rs`, not in the sources). -/
inductive ErrorCode
  | TooManyProductTerms
  | DisallowedCLK
  | DisallowedARST
  | DisallowedAPRST
  | NoCLK
deriving DecidableEq

/-- Modelled from the spec: an error carries the source line of the
offending term (`errors.rs` / `at_line`, not in the sources). -/
structure Error where
  line_num : Nat
  code : ErrorCode
deriving DecidableEq

/-- Modelled from the spec: the per-pin `OLMC` record of `blueprint.rs`
(not in the sources). -/
structure OLMC where
  active : Active
  output : Option (PinMode × Term)
  tri_con : Option Term
  clock : Option Term
  arst : Option Term
  aprst : Option Term
  feedback : Bool
deriving DecidableEq

/-- Modelled from the spec: the resolved `Blueprint` of `blueprint.rs`
(not in the sources). -/
structure Blueprint where
  chip : Chip
  sig : List Nat
  olmcs : List OLMC
  ar : Option Term
  sp : Option Term
deriving DecidableEq

/-- State of one fuse-matrix row: as allocated, holding the literals of one
product-term row, or disabled (all fuses programmed). -/
inductive Row
  | unset
  | lits (xs : List Nat)
  | disabled
deriving DecidableEq

/-- Modelled from the spec: the target fuse map `GAL` of `gal.rs` (not in
the sources).  Bit planes are total functions from flat indices; the mode
selector bits AC0/SYN are abstracted as a stored `Mode`. -/
structure GAL where
  chip : Chip
  fuses : Nat → Row
  xor : Nat → Bool
  sig : Nat → Bool
  ac1 : Nat → Bool
  s1 : Nat → Bool
  pt : Nat → Bool
  mode : Mode

/-- Modelled from the spec: `GAL::new` allocates a zeroed GAL sized for the
chip. -/
def GAL.new (chip : Chip) : GAL :=
  { chip := chip
    fuses := fun _ => Row.unset
    xor := fun _ => false
    sig := fun _ => false
    ac1 := fun _ => false
    s1 := fun _ => false
    pt := fun _ => false
    mode := Mode.Mode1 }

/-- Modelled from the spec: `set_mode` records the chosen mode (drives the
AC0/SYN selector bits, abstracted here). -/
def GAL.set_mode (gal : GAL) (m : Mode) : GAL := { gal with mode := m }

/-- Modelled from the spec: `get_mode` reads back the mode recorded by
`set_mode`. -/
def GAL.get_mode (gal : GAL) : Mode := gal.mode

/-- Number of OLMCs of each chip (spec chip-geometry table). -/
def numOlmcs : Chip → Nat
  | Chip.GAL16V8 => 8
  | Chip.GAL20V8 => 8
  | Chip.GAL22V10 => 10
  | Chip.GAL20RA10 => 10

/-- Total fuse rows of each chip (spec chip-geometry table). -/
def numRows : Chip → Nat
  | Chip.GAL16V8 => 64
  | Chip.GAL20V8 => 64
  | Chip.GAL22V10 => 132
  | Chip.GAL20RA10 => 80

/-- Modelled from the spec: per-OLMC row regions for the GAL22V10, per the
22V10 datasheet literal table (row 0 is AR, row 131 is SP). -/
def v10_start_row (i : Nat) : Nat :=
  List.getD [1, 10, 21, 34, 49, 66, 83, 98, 111, 122] i 0

/-- Modelled from the spec: rows per OLMC region for the GAL22V10. -/
def v10_num_rows (i : Nat) : Nat :=
  List.getD [9, 11, 13, 15, 17, 17, 15, 13, 11, 9] i 0

/-- Modelled from the spec: `chips.rs::get_bounds` — the fuse-row region of
OLMC `i` on the given chip, with no offset. -/
def get_bounds (chip : Chip) (i : Nat) : Bounds :=
  match chip with
  | Chip.GAL16V8 => { start_row := 8 * i, max_row := 8, row_offset := 0 }
  | Chip.GAL20V8 => { start_row := 8 * i, max_row := 8, row_offset := 0 }
  | Chip.GAL22V10 =>
      { start_row := v10_start_row i, max_row := v10_num_rows i, row_offset := 0 }
  | Chip.GAL20RA10 => { start_row := 8 * i, max_row := 8, row_offset := 0 }

/-- Point update of a fuse-row plane. -/
def setRow (fuses : Nat → Row) (r : Nat) (v : Row) : Nat → Row :=
  fun k => if k = r then v else fuses k

/-- Write the rows of a term into `count` writable rows starting at `base`;
rows left over after the term's rows are disabled (all fuses programmed). -/
def writeTermRows (fuses : Nat → Row) (base count : Nat) (rows : List (List Nat)) :
    Nat → Row :=
  match count, rows with
  | 0, _ => fuses
  | c + 1, [] => writeTermRows (setRow fuses base Row.disabled) (base + 1) c []
  | c + 1, r :: rs => writeTermRows (setRow fuses base (Row.lits r)) (base + 1) c rs

/-- Modelled from the spec: `gal.rs::add_term` — fails with
`TooManyProductTerms` when the term has more product rows than the writable
range admits, otherwise writes the rows into
`[start_row + row_offset, start_row + max_row)` and disables the rest. -/
def add_term (gal : GAL) (term : Term) (bounds : Bounds) : Except Error GAL :=
  if bounds.max_row - bounds.row_offset < term.pins.length then
    Except.error { line_num := term.line_num, code := ErrorCode.TooManyProductTerms }
  else
    Except.ok { gal with
      fuses := writeTermRows gal.fuses (bounds.start_row + bounds.row_offset)
        (bounds.max_row - bounds.row_offset) term.pins }

/-- Modelled from the spec: `gal.rs::add_term_opt` — an absent optional term
disables the entire writable range, a present one is placed by `add_term`. -/
def add_term_opt (gal : GAL) (term : Option Term) (bounds : Bounds) : Except Error GAL :=
  match term with
  | some t => add_term gal t bounds
  | none =>
      Except.ok { gal with
        fuses := writeTermRows gal.fuses (bounds.start_row + bounds.row_offset)
          (bounds.max_row - bounds.row_offset) [] }

/-- Modelled from the spec: `gal.rs::false_term` — a constant-false term,
one product row with no literals. -/
def false_term (line : Nat) : Term := { line_num := line, pins := [[]] }

/-- The index sequence of a Rust `for j in 0..8` loop. -/
def idx8 : List Nat := [0, 1, 2, 3, 4, 5, 6, 7]

/-! ## `gal_builder.rs`, translated from the source -/

/-- One signature bit: `(c << j) & 0x80 != 0` in u8 arithmetic (the byte is
reduced mod 256; the mask 0x80 only ever reads bit 7, so the shifted-out
high bits are irrelevant, as in Rust's wrapping u8 shift). -/
def sigBit (c j : Nat) : Bool := (((c % 256) <<< j) &&& 0x80) != 0

/-- Inner loop of `set_sig`: one byte `c` packed MSB-first into bits
`i*8 .. i*8+7`, bit `i*8+j := (c << j) & 0x80 != 0` (u8 arithmetic). -/
def setSigBits (sig : Nat → Bool) (i c : Nat) : Nat → Bool :=
  List.foldl
    (fun s j => fun k => if k = i * 8 + j then sigBit c j else s k)
    sig idx8

/-- Outer loop of `set_sig` over the first `min(len, 8)` signature bytes. -/
def set_sig_go (sig : Nat → Bool) (bytes : List Nat) (i : Nat) : Nat → Bool :=
  match bytes with
  | [] => sig
  | c :: rest => if i < 8 then set_sig_go (setSigBits sig i c) rest (i + 1) else sig

/-- `gal_builder.rs::set_sig`: write out the signature. -/
def set_sig (blueprint : Blueprint) (gal : GAL) : GAL :=
  { gal with sig := set_sig_go gal.sig blueprint.sig 0 }

/-- The `if let Some((PinMode::Registered, _))` test on an OLMC output,
shared by `tristate_adjust` and the first loop of `get_mode_v8`. -/
def isRegOutput (output : Option (PinMode × Term)) : Bool :=
  match output with
  | some (PinMode.Registered, _) => true
  | _ => false

/-- `gal_builder.rs::tristate_adjust`: adjust the bounds for the main term
when the first rows of the region are reserved for auxiliary terms. -/
def tristate_adjust (gal : GAL) (output : Option (PinMode × Term)) (bounds : Bounds) :
    Bounds :=
  match gal.chip with
  | Chip.GAL16V8 | Chip.GAL20V8 =>
      let reg_out : Bool := isRegOutput output
      if gal.get_mode != Mode.Mode1 && !reg_out then
        { bounds with row_offset := 1 }
      else
        bounds
  | Chip.GAL22V10 => { bounds with row_offset := 1 }
  | Chip.GAL20RA10 => { bounds with row_offset := 4 }

/-- Loop body of `gal_builder.rs::set_core_eqns` over the OLMC list, `i`
being the index of the head olmc. -/
def set_core_go (gal : GAL) (olmcs : List OLMC) (i : Nat) : Except Error GAL :=
  match olmcs with
  | [] => Except.ok gal
  | olmc :: rest =>
    let bounds := get_bounds gal.chip i
    let placed : Except Error GAL :=
      match olmc.output with
      | some (_, term) => add_term gal term (tristate_adjust gal olmc.output bounds)
      | none => add_term gal (false_term 0) bounds
    match placed with
    | Except.error e => Except.error e
    | Except.ok g1 =>
      match olmc.tri_con with
      | some term =>
        match add_term g1 term { bounds with row_offset := 0, max_row := 1 } with
        | Except.error e => Except.error e
        | Except.ok g2 => set_core_go g2 rest (i + 1)
      | none => set_core_go g1 rest (i + 1)

/-- `gal_builder.rs::set_core_eqns`: set the main expression and tristate
term of every OLMC. -/
def set_core_eqns (gal : GAL) (blueprint : Blueprint) : Except Error GAL :=
  set_core_go gal blueprint.olmcs 0

/-- Loop body of `gal_builder.rs::set_aux_eqns` (ARST, APRST and CLK, only
used by the GAL20RA10). -/
def set_aux_go (gal : GAL) (olmcs : List OLMC) (i : Nat) : Except Error GAL :=
  match olmcs with
  | [] => Except.ok gal
  | olmc :: rest =>
    let bounds := get_bounds gal.chip i
    if olmc.output.isSome then
      let afterReg : Except Error GAL :=
        match olmc.output with
        | some (PinMode.Registered, term) =>
          match add_term_opt gal olmc.arst { bounds with row_offset := 2, max_row := 3 } with
          | Except.error e => Except.error e
          | Except.ok g1 =>
            match add_term_opt g1 olmc.aprst { bounds with row_offset := 3, max_row := 4 } with
            | Except.error e => Except.error e
            | Except.ok g2 =>
              if olmc.clock.isNone then
                Except.error { line_num := term.line_num, code := ErrorCode.NoCLK }
              else
                Except.ok g2
        | _ => Except.ok gal
      match afterReg with
      | Except.error e => Except.error e
      | Except.ok g2 =>
        match add_term_opt g2 olmc.clock { bounds with row_offset := 1, max_row := 2 } with
        | Except.error e => Except.error e
        | Except.ok g3 => set_aux_go g3 rest (i + 1)
    else
      set_aux_go gal rest (i + 1)

/-- `gal_builder.rs::set_aux_eqns`. -/
def set_aux_eqns (gal : GAL) (blueprint : Blueprint) : Except Error GAL :=
  set_aux_go gal blueprint.olmcs 0

/-- `gal_builder.rs::set_arsp_eqns`: the AR and SP equations, unique to the
GAL22V10. -/
def set_arsp_eqns (gal : GAL) (blueprint : Blueprint) : Except Error GAL :=
  match add_term_opt gal blueprint.ar { start_row := 0, max_row := 1, row_offset := 0 } with
  | Except.error e => Except.error e
  | Except.ok g1 =>
      add_term_opt g1 blueprint.sp { start_row := 131, max_row := 1, row_offset := 0 }

/-- `gal_builder.rs::set_pts`: set all 64 product-term-disable bits. -/
def set_pts (gal : GAL) : GAL :=
  { gal with pt := fun k => if k < 64 then true else gal.pt k }

/-- Loop body of `gal_builder.rs::check_not_gal20ra10`. -/
def check_go (olmcs : List OLMC) : Except Error Unit :=
  match olmcs with
  | [] => Except.ok ()
  | olmc :: rest =>
    match olmc.clock with
    | some term => Except.error { line_num := term.line_num, code := ErrorCode.DisallowedCLK }
    | none =>
    match olmc.arst with
    | some term => Except.error { line_num := term.line_num, code := ErrorCode.DisallowedARST }
    | none =>
    match olmc.aprst with
    | some term => Except.error { line_num := term.line_num, code := ErrorCode.DisallowedAPRST }
    | none => check_go rest

/-- `gal_builder.rs::check_not_gal20ra10`: check that no 20RA10-specific
feature is used. -/
def check_not_gal20ra10 (blueprint : Blueprint) : Except Error Unit :=
  check_go blueprint.olmcs

/-- Shared loop shape of `set_xors` and `build_tristate_flags`: walk the
OLMC list and set bit `num - 1 - i` of the plane for each OLMC satisfying
`p`. -/
def mark_rev_go (flags : Nat → Bool) (olmcs : List OLMC) (p : OLMC → Bool)
    (num i : Nat) : Nat → Bool :=
  match olmcs with
  | [] => flags
  | olmc :: rest =>
    mark_rev_go
      (if p olmc then fun k => if k = num - 1 - i then true else flags k else flags)
      rest p num (i + 1)

/-- Condition of `set_xors`: a driven output with active-high polarity. -/
def xorCond (olmc : OLMC) : Bool := olmc.output.isSome && olmc.active == Active.High

/-- `gal_builder.rs::set_xors`: set the XOR bits for inverting outputs. -/
def set_xors (gal : GAL) (blueprint : Blueprint) : GAL :=
  { gal with xor := mark_rev_go gal.xor blueprint.olmcs xorCond blueprint.olmcs.length 0 }

/-- The `is_tristate` match of `gal_builder.rs::build_tristate_flags`. -/
def triCond (com_is_tri : Bool) (olmc : OLMC) : Bool :=
  match olmc.output with
  | none => olmc.feedback
  | some (PinMode.Tristate, _) => true
  | some (PinMode.Combinatorial, _) => com_is_tri
  | some (PinMode.Registered, _) => false

/-- `gal_builder.rs::build_tristate_flags`: the tristate control bits, set
for inputs and tristated outputs. -/
def build_tristate_flags (flags : Nat → Bool) (blueprint : Blueprint)
    (com_is_tri : Bool) : Nat → Bool :=
  mark_rev_go flags blueprint.olmcs (triCond com_is_tri) blueprint.olmcs.length 0

/-- One Rust `for n in 0..`-style scan: visit the listed indices in order,
returning `none` on the first out-of-bounds access (a Rust panic),
`some true` when the predicate first holds, `some false` when the scan
finishes. -/
def scanIdx {α : Type} (xs : List α) (p : Nat → α → Bool) : List Nat → Option Bool
  | [] => some false
  | n :: ns =>
    match xs[n]? with
    | none => none
    | some x => if p n x then some true else scanIdx xs p ns

/-- Predicate of the first `get_mode_v8` loop: a Registered output. -/
def regCond (o : OLMC) : Bool := isRegOutput o.output

/-- Predicate of the second `get_mode_v8` loop: a Tristate output. -/
def triOutCond (o : OLMC) : Bool :=
  match o.output with
  | some (PinMode.Tristate, _) => true
  | _ => false

/-- Predicate of the third `get_mode_v8` loop: Mode 1 cannot be used. -/
def mode1Block (n : Nat) (o : OLMC) : Bool :=
  (o.feedback && o.output.isNone && (n == 3 || n == 4)) ||
    (o.feedback && o.output.isSome)

/-- `gal_builder.rs::get_mode_v8`: mode analysis for the GALxV8 chips.
`none` models the Rust panic on an out-of-bounds index. -/
def get_mode_v8 (olmcs : List OLMC) : Option Mode :=
  match scanIdx olmcs (fun _ o => regCond o) idx8 with
  | none => none
  | some true => some Mode.Mode3
  | some false =>
  match scanIdx olmcs (fun _ o => triOutCond o) idx8 with
  | none => none
  | some true => some Mode.Mode2
  | some false =>
  match scanIdx olmcs mode1Block idx8 with
  | none => none
  | some true => some Mode.Mode2
  | some false => some Mode.Mode1

/-- `gal_builder.rs::build_galxv8` (GAL16V8, GAL20V8).  The outer `Option`
models the potential panic of `get_mode_v8`. -/
def build_galxv8 (gal : GAL) (blueprint : Blueprint) : Option (Except Error GAL) :=
  match check_not_gal20ra10 blueprint with
  | Except.error e => some (Except.error e)
  | Except.ok _ =>
    let gal := set_sig blueprint gal
    match get_mode_v8 blueprint.olmcs with
    | none => none
    | some mode =>
      let gal := gal.set_mode mode
      let com_is_tri : Bool := mode != Mode.Mode1
      match set_core_eqns gal blueprint with
      | Except.error e => some (Except.error e)
      | Except.ok gal =>
        let gal := { gal with ac1 := build_tristate_flags gal.ac1 blueprint com_is_tri }
        let gal := set_xors gal blueprint
        let gal := set_pts gal
        some (Except.ok gal)

/-- `gal_builder.rs::build_gal22v10`. -/
def build_gal22v10 (gal : GAL) (blueprint : Blueprint) : Except Error GAL :=
  match check_not_gal20ra10 blueprint with
  | Except.error e => Except.error e
  | Except.ok _ =>
    let gal := set_sig blueprint gal
    let gal := { gal with s1 := build_tristate_flags gal.s1 blueprint true }
    match set_core_eqns gal blueprint with
    | Except.error e => Except.error e
    | Except.ok gal =>
      match set_arsp_eqns gal blueprint with
      | Except.error e => Except.error e
      | Except.ok gal => Except.ok (set_xors gal blueprint)

/-- `gal_builder.rs::build_gal20ra10`. -/
def build_gal20ra10 (gal : GAL) (blueprint : Blueprint) : Except Error GAL :=
  let gal := set_sig blueprint gal
  match set_core_eqns gal blueprint with
  | Except.error e => Except.error e
  | Except.ok gal =>
    match set_aux_eqns gal blueprint with
    | Except.error e => Except.error e
    | Except.ok gal => Except.ok (set_xors gal blueprint)

/-- `gal_builder.rs::build`: allocate a zeroed GAL and dispatch to the chip
builder.  `none` models a panic (only possible through `get_mode_v8`). -/
def build (blueprint : Blueprint) : Option (Except Error GAL) :=
  let gal := GAL.new blueprint.chip
  match blueprint.chip with
  | Chip.GAL16V8 | Chip.GAL20V8 => build_galxv8 gal blueprint
  | Chip.GAL22V10 => some (build_gal22v10 gal blueprint)
  | Chip.GAL20RA10 => some (build_gal20ra10 gal blueprint)

/-! ## `olmc.rs`, translated from the source -/

namespace olmc

/-- `olmc.rs::Tri`. -/
inductive Tri
  | None
  | Some (t : Term)
  | VCC
deriving DecidableEq

/-- `olmc.rs::PinType`. -/
inductive PinType
  | UNDRIVEN
  | COMOUT
  | TRIOUT
  | REGOUT
  | COMTRIOUT
deriving DecidableEq

/-- `olmc.rs::Active`. -/
inductive Active
  | LOW
  | HIGH
deriving DecidableEq

/-- `olmc.rs::OLMC`. -/
structure OLMC where
  active : Active
  pin_type : PinType
  output : Option Term
  tri_con : Tri
  clock : Option Term
  arst : Option Term
  aprst : Option Term
  feedback : Bool
deriving DecidableEq

/-- The pin-number test of the third loop of `olmc.rs::get_mode_v8`:
`pin_num = n + 12` must be 15 or 16 on the GAL16V8, `pin_num = n + 15` must
be 18 or 19 on the GAL20V8. -/
def pinBlock (chip : Chip) (n : Nat) : Bool :=
  match chip with
  | Chip.GAL16V8 => (n + 12 == 15) || (n + 12 == 16)
  | Chip.GAL20V8 => (n + 15 == 18) || (n + 15 == 19)
  | _ => false

/-- Predicate of the third loop of `olmc.rs::get_mode_v8`. -/
def mode1BlockO (chip : Chip) (n : Nat) (o : OLMC) : Bool :=
  (o.feedback && o.pin_type == PinType.UNDRIVEN && pinBlock chip n) ||
    (o.feedback && o.pin_type == PinType.COMTRIOUT)

/-- `olmc.rs::get_mode_v8` (the `jedec` argument is read only for its chip).
`none` models the Rust panic on an out-of-bounds index. -/
def get_mode_v8 (chip : Chip) (olmcs : List OLMC) : Option Mode :=
  match scanIdx olmcs (fun _ o => o.pin_type == PinType.REGOUT) idx8 with
  | none => none
  | some true => some Mode.Mode3
  | some false =>
  match scanIdx olmcs (fun _ o => o.pin_type == PinType.TRIOUT) idx8 with
  | none => none
  | some true => some Mode.Mode2
  | some false =>
  match scanIdx olmcs (mode1BlockO chip) idx8 with
  | none => none
  | some true => some Mode.Mode2
  | some false => some Mode.Mode1

end olmc

/-- Correspondence of a blueprint OLMC output with an `olmc.rs` pin type:
Registered output ↔ REGOUT, Tristate output ↔ TRIOUT, Combinatorial output
↔ COMTRIOUT, no output ↔ UNDRIVEN. -/
def toPinType (output : Option (PinMode × Term)) : olmc.PinType :=
  match output with
  | none => olmc.PinType.UNDRIVEN
  | some (PinMode.Combinatorial, _) => olmc.PinType.COMTRIOUT
  | some (PinMode.Tristate, _) => olmc.PinType.TRIOUT
  | some (PinMode.Registered, _) => olmc.PinType.REGOUT

/-- Correspondence of a blueprint OLMC with an `olmc.rs` OLMC. -/
def toOlmcOLMC (o : OLMC) : olmc.OLMC :=
  { active := match o.active with
      | Active.Low => olmc.Active.LOW
      | Active.High => olmc.Active.HIGH
    pin_type := toPinType o.output
    output := Option.map (fun p => p.2) o.output
    tri_con := match o.tri_con with
      | none => olmc.Tri.None
      | some t => olmc.Tri.Some t
    clock := o.clock
    arst := o.arst
    aprst := o.aprst
    feedback := o.feedback }

/-! ## Helper lemmas -/

/-- A default OLMC, used only as the `getD` default at in-bounds indices. -/
def dOLMC : OLMC :=
  { active := Active.Low, output := none, tri_con := none, clock := none,
    arst := none, aprst := none, feedback := false }

/-- List indexing with a default, kept as its own constant so that `simp`
does not normalize it away. -/
def nthD {α : Type} (xs : List α) (n : Nat) (d : α) : α := List.getD xs n d

theorem getElem?_eq_some_nthD {α : Type} (xs : List α) (n : Nat) (d : α)
    (hn : n < xs.length) : xs[n]? = some (nthD xs n d) := by
  unfold nthD
  rw [List.getD_eq_getElem?_getD, List.getElem?_eq_getElem hn]
  rfl

theorem scanIdx_eq_any {α : Type} (xs : List α) (p : Nat → α → Bool) (d : α)
    (ns : List Nat) (h : ∀ n ∈ ns, n < xs.length) :
    scanIdx xs p ns = some (ns.any fun n => p n (nthD xs n d)) := by
  induction ns with
  | nil => rfl
  | cons n ns ih =>
    have hn : n < xs.length := h n (by simp)
    simp only [scanIdx, getElem?_eq_some_nthD xs n d hn, List.any_cons]
    by_cases hp : p n (nthD xs n d) = true
    · simp [hp]
    · simp [hp, ih (fun m hm => h m (by simp [hm]))]

theorem get_mode_v8_eq (olmcs : List OLMC) (h : 8 ≤ olmcs.length) :
    get_mode_v8 olmcs = some (
      cond (idx8.any fun n => regCond (nthD olmcs n dOLMC)) Mode.Mode3
      (cond (idx8.any fun n => triOutCond (nthD olmcs n dOLMC)) Mode.Mode2
      (cond (idx8.any fun n => mode1Block n (nthD olmcs n dOLMC)) Mode.Mode2
        Mode.Mode1))) := by
  have h8 : ∀ n ∈ idx8, n < olmcs.length := by
    intro n hn
    simp only [idx8, List.mem_cons, List.not_mem_nil, or_false] at hn
    rcases hn with h0 | h0 | h0 | h0 | h0 | h0 | h0 | h0 <;> omega
  have e1 : scanIdx olmcs (fun _ o => regCond o) idx8
      = some (idx8.any fun n => regCond (nthD olmcs n dOLMC)) :=
    scanIdx_eq_any olmcs _ dOLMC _ h8
  have e2 : scanIdx olmcs (fun _ o => triOutCond o) idx8
      = some (idx8.any fun n => triOutCond (nthD olmcs n dOLMC)) :=
    scanIdx_eq_any olmcs _ dOLMC _ h8
  have e3 : scanIdx olmcs mode1Block idx8
      = some (idx8.any fun n => mode1Block n (nthD olmcs n dOLMC)) :=
    scanIdx_eq_any olmcs _ dOLMC _ h8
  unfold get_mode_v8
  rw [e1, e2, e3]
  rcases Bool.eq_false_or_eq_true
      (idx8.any fun n => regCond (nthD olmcs n dOLMC)) with hA | hA <;>
    rcases Bool.eq_false_or_eq_true
      (idx8.any fun n => triOutCond (nthD olmcs n dOLMC)) with hB | hB <;>
    rcases Bool.eq_false_or_eq_true
      (idx8.any fun n => mode1Block n (nthD olmcs n dOLMC)) with hC | hC <;>
    rw [hA, hB, hC] <;> rfl

theorem any_range8 (olmcs : List OLMC) (h : olmcs.length = 8) (p : OLMC → Bool) :
    (idx8.any fun n => p (nthD olmcs n dOLMC)) = olmcs.any p := by
  rcases olmcs with _ | ⟨o0, _ | ⟨o1, _ | ⟨o2, _ | ⟨o3, _ | ⟨o4, _ | ⟨o5, _ | ⟨o6, _ |
    ⟨o7, _ | ⟨o8, t⟩⟩⟩⟩⟩⟩⟩⟩⟩
  all_goals simp only [List.length_cons, List.length_nil] at h
  all_goals first
    | omega
    | rfl

theorem mode1Block_zero (o : OLMC) : mode1Block 0 o = (o.feedback && o.output.isSome) := by
  simp [mode1Block]

theorem mode1Block_one (o : OLMC) : mode1Block 1 o = (o.feedback && o.output.isSome) := by
  simp [mode1Block]

theorem mode1Block_two (o : OLMC) : mode1Block 2 o = (o.feedback && o.output.isSome) := by
  simp [mode1Block]

theorem mode1Block_three (o : OLMC) :
    mode1Block 3 o = (o.feedback && o.output.isNone || o.feedback && o.output.isSome) := by
  simp [mode1Block]

theorem mode1Block_four (o : OLMC) :
    mode1Block 4 o = (o.feedback && o.output.isNone || o.feedback && o.output.isSome) := by
  simp [mode1Block]

theorem mode1Block_five (o : OLMC) : mode1Block 5 o = (o.feedback && o.output.isSome) := by
  simp [mode1Block]

theorem mode1Block_six (o : OLMC) : mode1Block 6 o = (o.feedback && o.output.isSome) := by
  simp [mode1Block]

theorem mode1Block_seven (o : OLMC) : mode1Block 7 o = (o.feedback && o.output.isSome) := by
  simp [mode1Block]

theorem mode1_any_eq (olmcs : List OLMC) (h : olmcs.length = 8) :
    (idx8.any fun n => mode1Block n (nthD olmcs n dOLMC)) =
      ((nthD olmcs 3 dOLMC).feedback && (nthD olmcs 3 dOLMC).output.isNone ||
       (nthD olmcs 4 dOLMC).feedback && (nthD olmcs 4 dOLMC).output.isNone ||
       olmcs.any fun o => o.feedback && o.output.isSome) := by
  rcases olmcs with _ | ⟨o0, _ | ⟨o1, _ | ⟨o2, _ | ⟨o3, _ | ⟨o4, _ | ⟨o5, _ | ⟨o6, _ |
    ⟨o7, _ | ⟨o8, t⟩⟩⟩⟩⟩⟩⟩⟩⟩
  all_goals simp only [List.length_cons, List.length_nil] at h
  all_goals try omega
  have eL : (idx8.any fun n =>
        mode1Block n (nthD [o0, o1, o2, o3, o4, o5, o6, o7] n dOLMC)) =
      (mode1Block 0 o0 || (mode1Block 1 o1 || (mode1Block 2 o2 || (mode1Block 3 o3 ||
        (mode1Block 4 o4 || (mode1Block 5 o5 || (mode1Block 6 o6 ||
        (mode1Block 7 o7 || false)))))))) := rfl
  have e3 : nthD [o0, o1, o2, o3, o4, o5, o6, o7] 3 dOLMC = o3 := rfl
  have e4 : nthD [o0, o1, o2, o3, o4, o5, o6, o7] 4 dOLMC = o4 := rfl
  rw [eL, e3, e4, mode1Block_zero, mode1Block_one, mode1Block_two, mode1Block_three,
    mode1Block_four, mode1Block_five, mode1Block_six, mode1Block_seven]
  rw [Bool.eq_iff_iff]
  simp only [List.any_cons, List.any_nil, Bool.or_eq_true, Bool.and_eq_true,
    Bool.or_false]
  constructor
  · rintro (h | h | h | (h | h) | (h | h) | h | h | h)
    · exact .inr (.inl h)
    · exact .inr (.inr (.inl h))
    · exact .inr (.inr (.inr (.inl h)))
    · exact .inl (.inl h)
    · exact .inr (.inr (.inr (.inr (.inl h))))
    · exact .inl (.inr h)
    · exact .inr (.inr (.inr (.inr (.inr (.inl h)))))
    · exact .inr (.inr (.inr (.inr (.inr (.inr (.inl h))))))
    · exact .inr (.inr (.inr (.inr (.inr (.inr (.inr (.inl h)))))))
    · exact .inr (.inr (.inr (.inr (.inr (.inr (.inr (.inr h)))))))
  · rintro ((h | h) | (h | h | h | h | h | h | h | h))
    · exact .inr (.inr (.inr (.inl (.inl h))))
    · exact .inr (.inr (.inr (.inr (.inl (.inl h)))))
    · exact .inl h
    · exact .inr (.inl h)
    · exact .inr (.inr (.inl h))
    · exact .inr (.inr (.inr (.inl (.inr h))))
    · exact .inr (.inr (.inr (.inr (.inl (.inr h)))))
    · exact .inr (.inr (.inr (.inr (.inr (.inl h)))))
    · exact .inr (.inr (.inr (.inr (.inr (.inr (.inl h))))))
    · exact .inr (.inr (.inr (.inr (.inr (.inr (.inr h))))))

/-- Claim C1: `get_mode_v8` follows the three-level priority: Mode 3 when
some OLMC has a Registered output, else Mode 2 when some OLMC has a Tristate
output, else Mode 2 when OLMC 3 or OLMC 4 (zero-indexed) has feedback and no
output or when any OLMC has feedback and some output, else Mode 1. -/
theorem get_mode_v8_priority (olmcs : List OLMC) (h : olmcs.length = 8) :
    get_mode_v8 olmcs = some (
      if olmcs.any regCond then Mode.Mode3
      else if olmcs.any triOutCond then Mode.Mode2
      else if ((nthD olmcs 3 dOLMC).feedback && (nthD olmcs 3 dOLMC).output.isNone ||
               (nthD olmcs 4 dOLMC).feedback && (nthD olmcs 4 dOLMC).output.isNone ||
               olmcs.any fun o => o.feedback && o.output.isSome) then Mode.Mode2
      else Mode.Mode1) := by
  rw [get_mode_v8_eq olmcs (by omega), any_range8 olmcs h regCond,
    any_range8 olmcs h triOutCond, mode1_any_eq olmcs h]
  rcases Bool.eq_false_or_eq_true (olmcs.any regCond) with hA | hA <;>
    rcases Bool.eq_false_or_eq_true (olmcs.any triOutCond) with hB | hB <;>
    rcases Bool.eq_false_or_eq_true
      ((nthD olmcs 3 dOLMC).feedback && (nthD olmcs 3 dOLMC).output.isNone ||
       (nthD olmcs 4 dOLMC).feedback && (nthD olmcs 4 dOLMC).output.isNone ||
       olmcs.any fun o => o.feedback && o.output.isSome) with hC | hC <;>
    rw [hA, hB, hC] <;> rfl

/-- A concrete 8-OLMC sequence (OLMC 2 has a Registered output). -/
def c1Olmcs : List OLMC :=
  [dOLMC, dOLMC,
   { dOLMC with output := some (PinMode.Registered, { line_num := 4, pins := [[2]] }),
                active := Active.High },
   dOLMC, dOLMC, dOLMC, dOLMC, dOLMC]

/-- Witness for C1 at a concrete 8-OLMC sequence. -/
theorem get_mode_v8_priority_witness :
    c1Olmcs.length = 8 ∧ get_mode_v8 c1Olmcs = some Mode.Mode3 := by
  constructor
  · rfl
  · rw [get_mode_v8_priority c1Olmcs rfl]
    rfl

/-- Claim C2: `tristate_adjust` leaves `start_row` and `max_row` unchanged;
`row_offset` keeps the input offset on the V8 chips when the mode is Mode 1
or the output is Registered and is 1 otherwise, is always 1 on the GAL22V10,
and is always 4 on the GAL20RA10. -/
theorem tristate_adjust_spec (gal : GAL) (output : Option (PinMode × Term))
    (bounds : Bounds) :
    (tristate_adjust gal output bounds).start_row = bounds.start_row ∧
    (tristate_adjust gal output bounds).max_row = bounds.max_row ∧
    (tristate_adjust gal output bounds).row_offset =
      (match gal.chip with
       | Chip.GAL16V8 | Chip.GAL20V8 =>
           if gal.get_mode = Mode.Mode1 ∨ isRegOutput output = true then bounds.row_offset
           else 1
       | Chip.GAL22V10 => 1
       | Chip.GAL20RA10 => 4) := by
  rcases gal with ⟨chip, fuses, xr, sg, a1, s1p, ptp, mode⟩
  cases chip <;> cases mode <;>
    rcases hro : isRegOutput output with _ | _ <;>
    simp [tristate_adjust, GAL.get_mode, hro]

/-- Claim C10 (amended): with at least 8 OLMCs every index access of
`get_mode_v8` is in bounds and the function is total; for the empty sequence
the out-of-bounds branch (modelled as `none`) is reached.  A sequence shorter
than 8 does not always reach the out-of-bounds branch (see the
counterexample), so totality holds only under the length precondition. -/
theorem get_mode_v8_safe (olmcs : List OLMC) (h : 8 ≤ olmcs.length) :
    (get_mode_v8 olmcs).isSome = true ∧ get_mode_v8 [] = none := by
  constructor
  · rw [get_mode_v8_eq olmcs h]
    rfl
  · rfl

/-- Witness for C10's amended theorem at a concrete 8-OLMC sequence. -/
theorem get_mode_v8_safe_witness :
    8 ≤ [dOLMC, dOLMC, dOLMC, dOLMC, dOLMC, dOLMC, dOLMC, dOLMC].length ∧
    ((get_mode_v8 [dOLMC, dOLMC, dOLMC, dOLMC, dOLMC, dOLMC, dOLMC, dOLMC]).isSome = true ∧
     get_mode_v8 [] = none) :=
  ⟨by decide,
   get_mode_v8_safe [dOLMC, dOLMC, dOLMC, dOLMC, dOLMC, dOLMC, dOLMC, dOLMC] (by decide)⟩

/-- Counterexample to C10 as stated: a sequence of fewer than 8 OLMCs whose
first OLMC has a Registered output returns `some Mode3` — the out-of-bounds
branch is not reached for this shorter sequence. -/
theorem get_mode_v8_short_no_oob :
    get_mode_v8
        [{ active := Active.High,
           output := some (PinMode.Registered, { line_num := 1, pins := [[1]] }),
           tri_con := none, clock := none, arst := none, aprst := none,
           feedback := false }] = some Mode.Mode3 ∧
    get_mode_v8
        [{ active := Active.High,
           output := some (PinMode.Registered, { line_num := 1, pins := [[1]] }),
           tri_con := none, clock := none, arst := none, aprst := none,
           feedback := false }] ≠ none := by
  decide

theorem scanIdx_map {α β : Type} (xs : List α) (f : α → β) (p : Nat → β → Bool)
    (ns : List Nat) :
    scanIdx (xs.map f) p ns = scanIdx xs (fun n o => p n (f o)) ns := by
  induction ns with
  | nil => rfl
  | cons m ms ih =>
    simp only [scanIdx, List.getElem?_map]
    cases xs[m]? with
    | none => rfl
    | some x =>
      by_cases hp : p m (f x) = true
      · simp [hp]
      · simp [hp, ih]

theorem scanIdx_false_all {α : Type} (xs : List α) (p : Nat → α → Bool)
    (ns : List Nat) (h : scanIdx xs p ns = some false) :
    ∀ n ∈ ns, ∀ x, xs[n]? = some x → p n x = false := by
  induction ns with
  | nil =>
    intro n hn
    simp at hn
  | cons n ns ih =>
    intro m hm x hx
    cases hxn : xs[n]? with
    | none =>
      simp only [scanIdx, hxn] at h
      exact Option.noConfusion h
    | some y =>
      simp only [scanIdx, hxn] at h
      by_cases hp : p n y = true
      · rw [if_pos hp] at h
        exact absurd h (by simp)
      · rw [if_neg hp] at h
        rcases List.mem_cons.mp hm with hmn | hmns
        · subst hmn
          rw [hx] at hxn
          cases hxn
          rcases Bool.eq_false_or_eq_true (p m x) with ht | hf
          · exact absurd ht hp
          · exact hf
        · exact ih h m hmns x hx

theorem scanIdx_congr {α : Type} (xs : List α) (p q : Nat → α → Bool) (ns : List Nat)
    (h : ∀ n ∈ ns, ∀ x, xs[n]? = some x → p n x = q n x) :
    scanIdx xs p ns = scanIdx xs q ns := by
  induction ns with
  | nil => rfl
  | cons n ns ih =>
    cases hxn : xs[n]? with
    | none => simp only [scanIdx, hxn]
    | some x =>
      simp only [scanIdx, hxn]
      rw [h n (by simp) x hxn]
      by_cases hq : q n x = true
      · simp [hq]
      · simp [hq, ih (fun m hm y hy => h m (by simp [hm]) y hy)]

theorem toPinType_reg (o : OLMC) :
    ((toOlmcOLMC o).pin_type == olmc.PinType.REGOUT) = regCond o := by
  rcases o with ⟨a, out, t, c, ar2, ap, f⟩
  rcases out with _ | ⟨pm, tm⟩
  · rfl
  · cases pm <;> rfl

theorem toPinType_tri (o : OLMC) :
    ((toOlmcOLMC o).pin_type == olmc.PinType.TRIOUT) = triOutCond o := by
  rcases o with ⟨a, out, t, c, ar2, ap, f⟩
  rcases out with _ | ⟨pm, tm⟩
  · rfl
  · cases pm <;> rfl

theorem pinBlock_16v8 (n : Nat) : olmc.pinBlock Chip.GAL16V8 n = ((n == 3) || (n == 4)) := by
  rw [Bool.eq_iff_iff]
  simp only [olmc.pinBlock, Bool.or_eq_true, beq_iff_eq]
  omega

theorem pinBlock_20v8 (n : Nat) : olmc.pinBlock Chip.GAL20V8 n = ((n == 3) || (n == 4)) := by
  rw [Bool.eq_iff_iff]
  simp only [olmc.pinBlock, Bool.or_eq_true, beq_iff_eq]
  omega

theorem mode1BlockO_eq (chip : Chip) (hc : chip = Chip.GAL16V8 ∨ chip = Chip.GAL20V8)
    (n : Nat) (o : OLMC) (hr : regCond o = false) (ht : triOutCond o = false) :
    olmc.mode1BlockO chip n (toOlmcOLMC o) = mode1Block n o := by
  have hpb : olmc.pinBlock chip n = ((n == 3) || (n == 4)) := by
    rcases hc with hc | hc <;> subst hc
    · exact pinBlock_16v8 n
    · exact pinBlock_20v8 n
  rcases o with ⟨a, out, t, c, ar2, ap, f⟩
  rcases out with _ | ⟨pm, tm⟩
  · simp [olmc.mode1BlockO, mode1Block, toOlmcOLMC, toPinType, hpb]
  · cases pm
    · simp [olmc.mode1BlockO, mode1Block, toOlmcOLMC, toPinType, hpb]
    · simp [triOutCond] at ht
    · simp [regCond, isRegOutput] at hr

/-- Claim C9: the two V8 mode-inference implementations agree — for any
OLMC sequence and chip GAL16V8 or GAL20V8, `olmc.rs::get_mode_v8` on the
corresponding pin-typed OLMCs (Registered ↔ REGOUT, Tristate ↔ TRIOUT,
driven Combinatorial ↔ COMTRIOUT, no output ↔ UNDRIVEN) equals
`gal_builder.rs::get_mode_v8`; the pin-number tests (15/16 on GAL16V8,
18/19 on GAL20V8) select exactly OLMC indices 3 and 4. -/
theorem get_mode_v8_agree (chip : Chip) (olmcs : List OLMC)
    (hc : chip = Chip.GAL16V8 ∨ chip = Chip.GAL20V8) :
    olmc.get_mode_v8 chip (olmcs.map toOlmcOLMC) = get_mode_v8 olmcs := by
  unfold olmc.get_mode_v8 get_mode_v8
  rw [scanIdx_map, scanIdx_map, scanIdx_map]
  have hreg : scanIdx olmcs
        (fun n o => (toOlmcOLMC o).pin_type == olmc.PinType.REGOUT) idx8
      = scanIdx olmcs (fun _ o => regCond o) idx8 :=
    scanIdx_congr _ _ _ _ (fun n _ x _ => toPinType_reg x)
  rw [hreg]
  cases hs1 : scanIdx olmcs (fun _ o => regCond o) idx8 with
  | none => rfl
  | some b1 =>
    cases b1 with
    | true => rfl
    | false =>
      have htri : scanIdx olmcs
            (fun n o => (toOlmcOLMC o).pin_type == olmc.PinType.TRIOUT) idx8
          = scanIdx olmcs (fun _ o => triOutCond o) idx8 :=
        scanIdx_congr _ _ _ _ (fun n _ x _ => toPinType_tri x)
      rw [htri]
      cases hs2 : scanIdx olmcs (fun _ o => triOutCond o) idx8 with
      | none => rfl
      | some b2 =>
        cases b2 with
        | true => rfl
        | false =>
          have hno1 := scanIdx_false_all olmcs _ idx8 hs1
          have hno2 := scanIdx_false_all olmcs _ idx8 hs2
          have h3 : scanIdx olmcs
                (fun n o => olmc.mode1BlockO chip n (toOlmcOLMC o)) idx8
              = scanIdx olmcs mode1Block idx8 := by
            apply scanIdx_congr
            intro n hn x hx
            exact mode1BlockO_eq chip hc n x (hno1 n hn x hx) (hno2 n hn x hx)
          rw [h3]

/-- A concrete OLMC sequence for the C9 witness (OLMC 3 is a bare
feedback input). -/
def c9Olmcs : List OLMC :=
  [dOLMC, dOLMC, dOLMC, { dOLMC with feedback := true },
   dOLMC, dOLMC, dOLMC, dOLMC]

/-- Witness for C9 at chip GAL16V8 and a concrete OLMC sequence. -/
theorem get_mode_v8_agree_witness :
    olmc.get_mode_v8 Chip.GAL16V8 (c9Olmcs.map toOlmcOLMC) = get_mode_v8 c9Olmcs :=
  get_mode_v8_agree Chip.GAL16V8 c9Olmcs (Or.inl rfl)

/-! ## Characterization of the reversed-index bit marking -/

/-- Whether some OLMC of the walk starting at index `i` writes bit `k`. -/
def markHit (olmcs : List OLMC) (p : OLMC → Bool) (num i k : Nat) : Bool :=
  match olmcs with
  | [] => false
  | o :: rest => (p o && (num - 1 - i == k)) || markHit rest p num (i + 1) k

theorem mark_rev_go_eq (olmcs : List OLMC) (flags : Nat → Bool) (p : OLMC → Bool)
    (num i k : Nat) :
    mark_rev_go flags olmcs p num i k = (flags k || markHit olmcs p num i k) := by
  induction olmcs generalizing flags i with
  | nil => simp [mark_rev_go, markHit]
  | cons o rest ih =>
    simp only [mark_rev_go, markHit]
    rw [ih]
    by_cases hp : p o = true
    · rw [if_pos hp, hp]
      simp only [Bool.true_and]
      by_cases hk : k = num - 1 - i
      · subst hk
        simp
      · have hbeq : (num - 1 - i == k) = false := by
          rw [beq_eq_false_iff_ne]
          exact fun hcon => hk hcon.symm
        simp [hk, hbeq]
    · have hp' : p o = false := by
        rcases Bool.eq_false_or_eq_true (p o) with ht | hf
        · exact absurd ht hp
        · exact hf
      rw [if_neg hp, hp']
      simp [Bool.or_assoc]

theorem markHit_out (olmcs : List OLMC) (p : OLMC → Bool) (num i k : Nat)
    (hk : ∀ j, j < olmcs.length → num - 1 - (i + j) ≠ k) :
    markHit olmcs p num i k = false := by
  induction olmcs generalizing i with
  | nil => rfl
  | cons o rest ih =>
    have hhead : (num - 1 - i == k) = false := by
      rw [beq_eq_false_iff_ne]
      have := hk 0 (by simp)
      simpa using this
    simp only [markHit, hhead, Bool.and_false, Bool.false_or]
    exact ih (i + 1) (fun j hj => by
      have := hk (j + 1) (by simpa using Nat.succ_lt_succ hj)
      simpa [Nat.add_assoc, Nat.add_comm, Nat.add_left_comm] using this)

theorem markHit_at (olmcs : List OLMC) (p : OLMC → Bool) (num i t : Nat)
    (hnum : i + olmcs.length = num) (ht : t < olmcs.length) :
    markHit olmcs p num i (num - 1 - (i + t)) = p (nthD olmcs t dOLMC) := by
  induction olmcs generalizing i t with
  | nil => exact absurd ht (by simp)
  | cons o rest ih =>
    cases t with
    | zero =>
      have hbeq : (num - 1 - i == num - 1 - (i + 0)) = true := by
        simp
      have htail : markHit rest p num (i + 1) (num - 1 - (i + 0)) = false := by
        apply markHit_out
        intro j hj
        simp only [List.length_cons] at hnum
        omega
      have hnth : nthD (o :: rest) 0 dOLMC = o := rfl
      simp only [markHit, hbeq, Bool.and_true, htail, Bool.or_false, hnth]
    | succ u =>
      have hnum' : i + 1 + rest.length = num := by
        simp only [List.length_cons] at hnum
        omega
      have ht' : u < rest.length := by
        simp only [List.length_cons] at ht
        omega
      have hbeq : (num - 1 - i == num - 1 - (i + 1 + u)) = false := by
        rw [beq_eq_false_iff_ne]
        omega
      have hidx : i + (u + 1) = i + 1 + u := by omega
      have hnth : nthD (o :: rest) (u + 1) dOLMC = nthD rest u dOLMC := rfl
      simp only [markHit, hidx, hbeq, Bool.and_false, Bool.false_or, hnth]
      exact ih (i + 1) u hnum' ht'

/-- The claim's formulation of the tristate condition: Combinatorial
output. -/
def comOutCond (o : OLMC) : Bool :=
  match o.output with
  | some (PinMode.Combinatorial, _) => true
  | _ => false

theorem triCond_eq (c : Bool) (o : OLMC) :
    triCond c o = ((o.output.isNone && o.feedback) ||
      (triOutCond o || (comOutCond o && c))) := by
  rcases o with ⟨a, out, t, cl, ar2, ap, f⟩
  rcases out with _ | ⟨pm, tm⟩
  · simp [triCond, triOutCond, comOutCond]
  · cases pm <;> simp [triCond, triOutCond, comOutCond]

/-- Claim C4: `build_tristate_flags` sets bit `olmc_count − 1 − i` exactly
when OLMC `i` has no output but feedback, or a Tristate output, or a
Combinatorial output while `com_is_tri` holds (a Registered output never
sets it, being none of these); all other positions are left unchanged. -/
theorem build_tristate_flags_spec (flags : Nat → Bool) (bp : Blueprint)
    (com_is_tri : Bool) (i : Nat) (hi : i < bp.olmcs.length) :
    (build_tristate_flags flags bp com_is_tri (bp.olmcs.length - 1 - i) =
      ((((nthD bp.olmcs i dOLMC).output.isNone && (nthD bp.olmcs i dOLMC).feedback) ||
        (triOutCond (nthD bp.olmcs i dOLMC) ||
         (comOutCond (nthD bp.olmcs i dOLMC) && com_is_tri))) ||
       flags (bp.olmcs.length - 1 - i))) ∧
    (∀ k, bp.olmcs.length ≤ k → build_tristate_flags flags bp com_is_tri k = flags k) := by
  constructor
  · have h0 : bp.olmcs.length - 1 - i = bp.olmcs.length - 1 - (0 + i) := by omega
    rw [build_tristate_flags, mark_rev_go_eq, h0,
      markHit_at bp.olmcs (triCond com_is_tri) bp.olmcs.length 0 i (by omega) hi,
      triCond_eq]
    rw [Bool.or_comm]
  · intro k hk
    rw [build_tristate_flags, mark_rev_go_eq, markHit_out]
    · simp
    · intro j hj
      omega

/-! ## Preservation of the chip and xor planes by term placement -/

/-- The chip and the xor plane are untouched by a build step. -/
def chipXorEq (g g' : GAL) : Prop := g'.chip = g.chip ∧ g'.xor = g.xor

theorem chipXorEq_refl (g : GAL) : chipXorEq g g := ⟨rfl, rfl⟩

theorem chipXorEq_trans {g1 g2 g3 : GAL} (h12 : chipXorEq g1 g2)
    (h23 : chipXorEq g2 g3) : chipXorEq g1 g3 :=
  ⟨h23.1.trans h12.1, h23.2.trans h12.2⟩

theorem add_term_chipXor (gal : GAL) (t : Term) (b : Bounds) (g' : GAL)
    (h : add_term gal t b = Except.ok g') : chipXorEq gal g' := by
  unfold add_term at h
  split at h
  · exact Except.noConfusion h
  · injection h with h
    subst h
    exact ⟨rfl, rfl⟩

theorem add_term_opt_chipXor (gal : GAL) (t : Option Term) (b : Bounds) (g' : GAL)
    (h : add_term_opt gal t b = Except.ok g') : chipXorEq gal g' := by
  unfold add_term_opt at h
  split at h
  · exact add_term_chipXor _ _ _ _ h
  · injection h with h
    subst h
    exact ⟨rfl, rfl⟩

theorem set_core_go_chipXor (olmcs : List OLMC) :
    ∀ (gal : GAL) (i : Nat) (g' : GAL), set_core_go gal olmcs i = Except.ok g' →
      chipXorEq gal g' := by
  induction olmcs with
  | nil =>
    intro gal i g' h
    simp only [set_core_go] at h
    injection h with h
    subst h
    exact chipXorEq_refl gal
  | cons o rest ih =>
    intro gal i g' h
    simp only [set_core_go] at h
    split at h
    · exact Except.noConfusion h
    · split at h
      · split at h
        · exact Except.noConfusion h
        · rename_i x1 g1 hout trc t2 htri x2 g2 hadd
          refine chipXorEq_trans ?_
            (chipXorEq_trans (add_term_chipXor _ _ _ _ hadd) (ih _ _ _ h))
          split at hout
          · exact add_term_chipXor _ _ _ _ hout
          · exact add_term_chipXor _ _ _ _ hout
      · rename_i x1 g1 hout trc hnone
        refine chipXorEq_trans ?_ (ih _ _ _ h)
        split at hout
        · exact add_term_chipXor _ _ _ _ hout
        · exact add_term_chipXor _ _ _ _ hout

theorem set_arsp_eqns_chipXor (gal : GAL) (bp : Blueprint) (g' : GAL)
    (h : set_arsp_eqns gal bp = Except.ok g') : chipXorEq gal g' := by
  unfold set_arsp_eqns at h
  split at h
  · exact Except.noConfusion h
  · rename_i x1 g1 har
    exact chipXorEq_trans (add_term_opt_chipXor _ _ _ _ har)
      (add_term_opt_chipXor _ _ _ _ h)

theorem set_aux_go_chipXor (olmcs : List OLMC) :
    ∀ (gal : GAL) (i : Nat) (g' : GAL), set_aux_go gal olmcs i = Except.ok g' →
      chipXorEq gal g' := by
  induction olmcs with
  | nil =>
    intro gal i g' h
    simp only [set_aux_go] at h
    injection h with h
    subst h
    exact chipXorEq_refl gal
  | cons o rest ih =>
    intro gal i g' h
    simp only [set_aux_go] at h
    split at h
    · split at h
      · exact Except.noConfusion h
      · rename_i g3 hreg
        split at h
        · exact Except.noConfusion h
        · rename_i g4 hclk
          refine chipXorEq_trans ?_
            (chipXorEq_trans (add_term_opt_chipXor _ _ _ _ hclk) (ih _ _ _ h))
          split at hreg
          · split at hreg
            · exact Except.noConfusion hreg
            · rename_i g5 harst
              split at hreg
              · exact Except.noConfusion hreg
              · rename_i g6 haprst
                split at hreg
                · exact Except.noConfusion hreg
                · injection hreg with hreg
                  subst hreg
                  exact chipXorEq_trans (add_term_opt_chipXor _ _ _ _ harst)
                    (add_term_opt_chipXor _ _ _ _ haprst)
          · injection hreg with hreg
            subst hreg
            exact chipXorEq_refl gal
    · exact ih _ _ _ h

/-! ## The xor plane after a successful build -/

theorem xor_plane_spec (bp : Blueprint) (g : GAL)
    (hx : g.xor = mark_rev_go (fun _ => false) bp.olmcs xorCond bp.olmcs.length 0) :
    (∀ i, i < bp.olmcs.length →
      g.xor (bp.olmcs.length - 1 - i) = xorCond (nthD bp.olmcs i dOLMC)) ∧
    (∀ k, bp.olmcs.length ≤ k → g.xor k = false) := by
  constructor
  · intro i hi
    have h0 : bp.olmcs.length - 1 - i = bp.olmcs.length - 1 - (0 + i) := by omega
    rw [hx, mark_rev_go_eq, h0,
      markHit_at bp.olmcs xorCond bp.olmcs.length 0 i (by omega) hi]
    simp
  · intro k hk
    rw [hx, mark_rev_go_eq, markHit_out]
    · simp
    · intro j hj
      omega

theorem build_galxv8_ok (g0 : GAL) (bp : Blueprint) (g : GAL)
    (h : build_galxv8 g0 bp = some (Except.ok g)) :
    g.xor = mark_rev_go g0.xor bp.olmcs xorCond bp.olmcs.length 0 := by
  simp only [build_galxv8] at h
  split at h
  · exact absurd h (by simp)
  · split at h
    · exact Option.noConfusion h
    · split at h
      · exact absurd h (by simp)
      · rename_i u1 m hmode x2 gal1 hcore
        injection h with h
        injection h with h
        subst h
        have hx1 : gal1.xor = g0.xor :=
          (set_core_go_chipXor bp.olmcs _ 0 gal1 hcore).2
        show mark_rev_go gal1.xor bp.olmcs xorCond bp.olmcs.length 0 =
          mark_rev_go g0.xor bp.olmcs xorCond bp.olmcs.length 0
        rw [hx1]

theorem build_gal22v10_ok (g0 : GAL) (bp : Blueprint) (g : GAL)
    (h : build_gal22v10 g0 bp = Except.ok g) :
    g.xor = mark_rev_go g0.xor bp.olmcs xorCond bp.olmcs.length 0 := by
  simp only [build_gal22v10] at h
  split at h
  · exact Except.noConfusion h
  · split at h
    · exact Except.noConfusion h
    · split at h
      · exact Except.noConfusion h
      · rename_i u1 x1 gal1 hcore x2 gal2 harsp
        injection h with h
        subst h
        have hx1 : gal1.xor = g0.xor :=
          (set_core_go_chipXor bp.olmcs _ 0 gal1 hcore).2
        have hx2 : gal2.xor = gal1.xor := (set_arsp_eqns_chipXor _ _ _ harsp).2
        show mark_rev_go gal2.xor bp.olmcs xorCond bp.olmcs.length 0 =
          mark_rev_go g0.xor bp.olmcs xorCond bp.olmcs.length 0
        rw [hx2, hx1]

theorem build_gal20ra10_ok (g0 : GAL) (bp : Blueprint) (g : GAL)
    (h : build_gal20ra10 g0 bp = Except.ok g) :
    g.xor = mark_rev_go g0.xor bp.olmcs xorCond bp.olmcs.length 0 := by
  simp only [build_gal20ra10] at h
  split at h
  · exact Except.noConfusion h
  · split at h
    · exact Except.noConfusion h
    · rename_i x1 gal1 hcore x2 gal2 haux
      injection h with h
      subst h
      have hx1 : gal1.xor = g0.xor :=
        (set_core_go_chipXor bp.olmcs _ 0 gal1 hcore).2
      have hx2 : gal2.xor = gal1.xor := (set_aux_go_chipXor bp.olmcs _ 0 gal2 haux).2
      show mark_rev_go gal2.xor bp.olmcs xorCond bp.olmcs.length 0 =
        mark_rev_go g0.xor bp.olmcs xorCond bp.olmcs.length 0
      rw [hx2, hx1]

/-- Claim C3: after a successful build, bit `olmc_count − 1 − i` of the xor
plane is set exactly when blueprint OLMC `i` has a driven output with
`active = High`; all other xor bits remain false (the GAL is allocated
zeroed). -/
theorem build_xor_spec (bp : Blueprint) (g : GAL)
    (hlen : bp.olmcs.length = numOlmcs bp.chip)
    (hbuild : build bp = some (Except.ok g)) :
    (∀ i, i < bp.olmcs.length →
      g.xor (bp.olmcs.length - 1 - i) =
        ((nthD bp.olmcs i dOLMC).output.isSome &&
         ((nthD bp.olmcs i dOLMC).active == Active.High))) ∧
    (∀ k, bp.olmcs.length ≤ k → g.xor k = false) := by
  have hx : g.xor = mark_rev_go (fun _ => false) bp.olmcs xorCond bp.olmcs.length 0 := by
    simp only [build] at hbuild
    split at hbuild
    · exact build_galxv8_ok _ _ _ hbuild
    · exact build_galxv8_ok _ _ _ hbuild
    · injection hbuild with hbuild
      exact build_gal22v10_ok _ _ _ hbuild
    · injection hbuild with hbuild
      exact build_gal20ra10_ok _ _ _ hbuild
  exact xor_plane_spec bp g hx

/-- A concrete blueprint for the C3 witness: GAL16V8, OLMC 1 has an
active-high combinatorial output. -/
def c3Bp : Blueprint :=
  { chip := Chip.GAL16V8, sig := [],
    olmcs := [dOLMC,
      { dOLMC with output := some (PinMode.Combinatorial, { line_num := 3, pins := [[1]] }),
                   active := Active.High },
      dOLMC, dOLMC, dOLMC, dOLMC, dOLMC, dOLMC],
    ar := none, sp := none }

/-- Extract the GAL of a successful build (with a fallback default). -/
def getBuilt (r : Option (Except Error GAL)) (d : GAL) : GAL :=
  match r with
  | some (Except.ok g) => g
  | _ => d

/-- Witness for C3 at a concrete successful build. -/
theorem build_xor_spec_witness :
    c3Bp.olmcs.length = numOlmcs c3Bp.chip ∧
    ((∀ i, i < c3Bp.olmcs.length →
      (getBuilt (build c3Bp) (GAL.new Chip.GAL16V8)).xor (c3Bp.olmcs.length - 1 - i) =
        ((nthD c3Bp.olmcs i dOLMC).output.isSome &&
         ((nthD c3Bp.olmcs i dOLMC).active == Active.High))) ∧
    (∀ k, c3Bp.olmcs.length ≤ k →
      (getBuilt (build c3Bp) (GAL.new Chip.GAL16V8)).xor k = false)) :=
  ⟨rfl, build_xor_spec c3Bp (getBuilt (build c3Bp) (GAL.new Chip.GAL16V8)) rfl rfl⟩

/-! ## The 20RA10-feature check -/

theorem check_go_append (pre xs : List OLMC)
    (hpre : ∀ o ∈ pre, o.clock = none ∧ o.arst = none ∧ o.aprst = none) :
    check_go (pre ++ xs) = check_go xs := by
  induction pre with
  | nil => rfl
  | cons o rest ih =>
    have ho := hpre o (by simp)
    simp only [List.cons_append, check_go, ho.1, ho.2.1, ho.2.2]
    exact ih (fun o' ho' => hpre o' (by simp [ho']))

theorem check_go_ok_clean (olmcs : List OLMC) (h : check_go olmcs = Except.ok ()) :
    ∀ o ∈ olmcs, o.clock = none ∧ o.arst = none ∧ o.aprst = none := by
  induction olmcs with
  | nil =>
    intro o ho
    simp at ho
  | cons o rest ih =>
    intro o' ho'
    cases hck : o.clock with
    | some t =>
      simp only [check_go, hck] at h
      exact Except.noConfusion h
    | none =>
    cases har : o.arst with
    | some t =>
      simp only [check_go, hck, har] at h
      exact Except.noConfusion h
    | none =>
    cases hap : o.aprst with
    | some t =>
      simp only [check_go, hck, har, hap] at h
      exact Except.noConfusion h
    | none =>
      have h' : check_go rest = Except.ok () := by
        simp only [check_go, hck, har, hap] at h
        exact h
      rcases List.mem_cons.mp ho' with heq | hmem
      · subst heq
        exact ⟨hck, har, hap⟩
      · exact ih h' o' hmem

theorem build_check_error (bp : Blueprint) (e : Error)
    (hchip : bp.chip ≠ Chip.GAL20RA10)
    (hc : check_not_gal20ra10 bp = Except.error e) :
    build bp = some (Except.error e) := by
  simp only [build]
  cases hcc : bp.chip
  · simp only [build_galxv8, hc]
  · simp only [build_galxv8, hc]
  · simp only [build_gal22v10, hc]
  · exact absurd hcc hchip

theorem build_ok_check (bp : Blueprint) (g : GAL)
    (hchip : bp.chip ≠ Chip.GAL20RA10)
    (hb : build bp = some (Except.ok g)) :
    check_not_gal20ra10 bp = Except.ok () := by
  cases hc : check_not_gal20ra10 bp with
  | error e =>
    rw [build_check_error bp e hchip hc] at hb
    exact absurd hb (by simp)
  | ok u =>
    cases u
    rfl

/-- Claim C6: on GAL16V8, GAL20V8 and GAL22V10 blueprints, an OLMC with
`clock`, `arst` or `aprst` set makes `build` fail with DisallowedCLK /
DisallowedARST / DisallowedAPRST at the offending term's line; OLMCs are
scanned in order and clock is checked before arst before aprst, so the first
offence determines the error; `build` returns Ok only if no OLMC has any of
these fields set. -/
theorem build_disallowed_non_ra10 (bp : Blueprint) (pre rest : List OLMC) (o : OLMC)
    (hchip : bp.chip ≠ Chip.GAL20RA10)
    (holmcs : bp.olmcs = pre ++ o :: rest)
    (hpre : ∀ o' ∈ pre, o'.clock = none ∧ o'.arst = none ∧ o'.aprst = none) :
    (∀ t, o.clock = some t →
      build bp = some (Except.error
        { line_num := t.line_num, code := ErrorCode.DisallowedCLK })) ∧
    (∀ t, o.clock = none → o.arst = some t →
      build bp = some (Except.error
        { line_num := t.line_num, code := ErrorCode.DisallowedARST })) ∧
    (∀ t, o.clock = none → o.arst = none → o.aprst = some t →
      build bp = some (Except.error
        { line_num := t.line_num, code := ErrorCode.DisallowedAPRST })) ∧
    (∀ g : GAL, build bp = some (Except.ok g) →
      ∀ o' ∈ bp.olmcs, o'.clock = none ∧ o'.arst = none ∧ o'.aprst = none) := by
  have hhead : ∀ e, check_go (o :: rest) = Except.error e →
      build bp = some (Except.error e) := by
    intro e he
    apply build_check_error bp e hchip
    show check_go bp.olmcs = Except.error e
    rw [holmcs, check_go_append pre (o :: rest) hpre, he]
  refine And.intro ?_ (And.intro ?_ (And.intro ?_ ?_))
  · intro t ht
    exact hhead _ (by simp only [check_go, ht])
  · intro t hck ht
    exact hhead _ (by simp only [check_go, hck, ht])
  · intro t hck har ht
    exact hhead _ (by simp only [check_go, hck, har, ht])
  · intro g hb o' ho'
    exact check_go_ok_clean bp.olmcs (build_ok_check bp g hchip hb) o' ho'

/-- A concrete offending OLMC for the C6 witness: `arst` set at line 7. -/
def c6O : OLMC := { dOLMC with arst := some { line_num := 7, pins := [[3]] } }

/-- A concrete blueprint for the C6 witness. -/
def c6Bp : Blueprint :=
  { chip := Chip.GAL16V8, sig := [], olmcs := [dOLMC] ++ c6O :: [],
    ar := none, sp := none }

/-- Witness for C6: the arst offence at line 7 fails the build. -/
theorem build_disallowed_non_ra10_witness :
    (∀ t, c6O.clock = some t →
      build c6Bp = some (Except.error
        { line_num := t.line_num, code := ErrorCode.DisallowedCLK })) ∧
    (∀ t, c6O.clock = none → c6O.arst = some t →
      build c6Bp = some (Except.error
        { line_num := t.line_num, code := ErrorCode.DisallowedARST })) ∧
    (∀ t, c6O.clock = none → c6O.arst = none → c6O.aprst = some t →
      build c6Bp = some (Except.error
        { line_num := t.line_num, code := ErrorCode.DisallowedAPRST })) ∧
    (∀ g : GAL, build c6Bp = some (Except.ok g) →
      ∀ o' ∈ c6Bp.olmcs, o'.clock = none ∧ o'.arst = none ∧ o'.aprst = none) :=
  build_disallowed_non_ra10 c6Bp [dOLMC] [] c6O (by decide) rfl (by decide)

/-! ## AR and SP placement (GAL22V10) -/

theorem add_term_opt_row1 (gal : GAL) (t : Option Term) (s : Nat) (g' : GAL)
    (h : add_term_opt gal t { start_row := s, max_row := 1, row_offset := 0 } =
      Except.ok g') :
    (t = none → g'.fuses s = Row.disabled) ∧
    (∀ tm, t = some tm → tm.pins = [] → g'.fuses s = Row.disabled) ∧
    (∀ tm r rs, t = some tm → tm.pins = r :: rs → g'.fuses s = Row.lits r) ∧
    (∀ k, k ≠ s → g'.fuses k = gal.fuses k) := by
  cases t with
  | none =>
    simp only [add_term_opt] at h
    injection h with h
    subst h
    refine And.intro ?_ (And.intro ?_ (And.intro ?_ ?_))
    · intro _
      simp [writeTermRows, setRow]
    · intro tm htm
      exact Option.noConfusion htm
    · intro tm r rs htm
      exact Option.noConfusion htm
    · intro k hk
      simp [writeTermRows, setRow, hk]
  | some tm =>
    simp only [add_term_opt, add_term] at h
    split at h
    · exact Except.noConfusion h
    · rename_i hcond
      injection h with h
      subst h
      refine And.intro ?_ (And.intro ?_ (And.intro ?_ ?_))
      · intro hnone
        exact Option.noConfusion hnone
      · intro tm2 htm hpins
        injection htm with htm
        subst htm
        simp only [hpins]
        simp [writeTermRows, setRow]
      · intro tm2 r rs htm hpins
        injection htm with htm
        subst htm
        rw [hpins] at hcond
        cases rs with
        | nil =>
          simp only [hpins]
          simp [writeTermRows, setRow]
        | cons r2 rs2 =>
          exact absurd (by simp) hcond
      · intro k hk
        cases hp : tm.pins with
        | nil => simp [writeTermRows, setRow, hk]
        | cons r rs =>
          rw [hp] at hcond
          cases rs with
          | nil => simp [writeTermRows, setRow, hk]
          | cons r2 rs2 => exact absurd (by simp) hcond

/-- Claim C8: `set_arsp_eqns` places AR with bounds
`{start_row := 0, max_row := 1, row_offset := 0}` and SP with bounds
`{start_row := 131, max_row := 1, row_offset := 0}`: row 0 holds the AR term
(or is disabled when AR is absent), row 131 holds the SP term (or is
disabled when SP is absent), and no other fuse row is touched. -/
theorem set_arsp_eqns_spec (gal : GAL) (bp : Blueprint) (g' : GAL)
    (hchip : bp.chip = Chip.GAL22V10)
    (h : set_arsp_eqns gal bp = Except.ok g') :
    (bp.ar = none → g'.fuses 0 = Row.disabled) ∧
    (∀ t r, bp.ar = some t → t.pins = [r] → g'.fuses 0 = Row.lits r) ∧
    (bp.sp = none → g'.fuses 131 = Row.disabled) ∧
    (∀ t r, bp.sp = some t → t.pins = [r] → g'.fuses 131 = Row.lits r) ∧
    (∀ k, k ≠ 0 → k ≠ 131 → g'.fuses k = gal.fuses k) := by
  unfold set_arsp_eqns at h
  split at h
  · exact Except.noConfusion h
  · rename_i g1 har
    have h1 := add_term_opt_row1 gal bp.ar 0 g1 har
    have h2 := add_term_opt_row1 g1 bp.sp 131 g' h
    refine And.intro ?_ (And.intro ?_ (And.intro ?_ (And.intro ?_ ?_)))
    · intro har0
      rw [h2.2.2.2 0 (by omega)]
      exact h1.1 har0
    · intro t r hart hpins
      rw [h2.2.2.2 0 (by omega)]
      exact h1.2.2.1 t r [] hart hpins
    · intro hsp0
      exact h2.1 hsp0
    · intro t r hspt hpins
      exact h2.2.2.1 t r [] hspt hpins
    · intro k hk0 hk131
      rw [h2.2.2.2 k hk131]
      exact h1.2.2.2 k hk0

/-- A concrete blueprint for the C8 witness: GAL22V10 with AR and SP
absent. -/
def c8Bp : Blueprint :=
  { chip := Chip.GAL22V10, sig := [], olmcs := [], ar := none, sp := none }

/-- Extract the GAL of a successful placement (with a fallback default). -/
def getOkE (r : Except Error GAL) (d : GAL) : GAL :=
  match r with
  | Except.ok g => g
  | Except.error _ => d

/-- Witness for C8: with AR and SP absent, rows 0 and 131 are disabled and
nothing else changes. -/
theorem set_arsp_eqns_spec_witness :
    (c8Bp.ar = none →
      (getOkE (set_arsp_eqns (GAL.new Chip.GAL22V10) c8Bp)
        (GAL.new Chip.GAL22V10)).fuses 0 = Row.disabled) ∧
    (∀ t r, c8Bp.ar = some t → t.pins = [r] →
      (getOkE (set_arsp_eqns (GAL.new Chip.GAL22V10) c8Bp)
        (GAL.new Chip.GAL22V10)).fuses 0 = Row.lits r) ∧
    (c8Bp.sp = none →
      (getOkE (set_arsp_eqns (GAL.new Chip.GAL22V10) c8Bp)
        (GAL.new Chip.GAL22V10)).fuses 131 = Row.disabled) ∧
    (∀ t r, c8Bp.sp = some t → t.pins = [r] →
      (getOkE (set_arsp_eqns (GAL.new Chip.GAL22V10) c8Bp)
        (GAL.new Chip.GAL22V10)).fuses 131 = Row.lits r) ∧
    (∀ k, k ≠ 0 → k ≠ 131 →
      (getOkE (set_arsp_eqns (GAL.new Chip.GAL22V10) c8Bp)
        (GAL.new Chip.GAL22V10)).fuses k = (GAL.new Chip.GAL22V10).fuses k) :=
  set_arsp_eqns_spec (GAL.new Chip.GAL22V10) c8Bp
    (getOkE (set_arsp_eqns (GAL.new Chip.GAL22V10) c8Bp) (GAL.new Chip.GAL22V10))
    rfl rfl

/-! ## CLK/ARST/APRST placement and the NoCLK error (GAL20RA10) -/

theorem set_aux_go_append (xs ys : List OLMC) :
    ∀ (gal : GAL) (i : Nat), set_aux_go gal (xs ++ ys) i =
      (match set_aux_go gal xs i with
       | Except.error e => Except.error e
       | Except.ok g2 => set_aux_go g2 ys (i + xs.length)) := by
  induction xs with
  | nil =>
    intro gal i
    simp [set_aux_go]
  | cons o rest ih =>
    intro gal i
    by_cases hs : o.output.isSome = true
    · simp only [List.cons_append, set_aux_go, hs, if_true, List.length_cons]
      split
      · rfl
      · split
        · rfl
        · rename_i g3 hclk
          simp only [List.append_eq]
          rw [ih]
          have hidx : i + 1 + rest.length = i + (rest.length + 1) := by omega
          rw [hidx]
    · have hs' : o.output.isSome = false := by
        rcases Bool.eq_false_or_eq_true o.output.isSome with ht | hf
        · exact absurd ht hs
        · exact hf
      simp only [List.cons_append, set_aux_go, hs', Bool.false_eq_true, if_false,
        List.length_cons, List.append_eq]
      rw [ih]
      have hidx : i + 1 + rest.length = i + (rest.length + 1) := by omega
      rw [hidx]

theorem set_aux_go_head_noclk (g1 : GAL) (o : OLMC) (rest : List OLMC) (i : Nat)
    (t : Term)
    (hchip : g1.chip = Chip.GAL20RA10)
    (hout : o.output = some (PinMode.Registered, t))
    (hclk : o.clock = none)
    (harst : ∃ g2, add_term_opt g1 o.arst
        { start_row := 8 * i, max_row := 3, row_offset := 2 } = Except.ok g2 ∧
      (add_term_opt g2 o.aprst
        { start_row := 8 * i, max_row := 4, row_offset := 3 }).isOk = true) :
    set_aux_go g1 (o :: rest) i =
      Except.error { line_num := t.line_num, code := ErrorCode.NoCLK } := by
  obtain ⟨g2, ha, hb⟩ := harst
  obtain ⟨g3, hc⟩ : ∃ g3, add_term_opt g2 o.aprst
      { start_row := 8 * i, max_row := 4, row_offset := 3 } = Except.ok g3 := by
    cases hx : add_term_opt g2 o.aprst
        { start_row := 8 * i, max_row := 4, row_offset := 3 } with
    | error e =>
      rw [hx] at hb
      exact absurd hb (by simp [Except.isOk, Except.toBool])
    | ok g3 => exact ⟨g3, rfl⟩
  have hsome : o.output.isSome = true := by
    rw [hout]
    rfl
  have hB : get_bounds g1.chip i =
      { start_row := 8 * i, max_row := 8, row_offset := 0 } := by
    rw [hchip]
    rfl
  have hnone : o.clock.isNone = true := by
    rw [hclk]
    rfl
  simp only [set_aux_go, hsome, if_true, hB, hout, ha, hc, hnone]
  simp

/-- Claim C5: on a GAL20RA10 blueprint, an OLMC with a Registered output and
no clock term makes `build` fail with NoCLK at the registered term's line,
provided the earlier OLMCs were processed successfully and that OLMC's arst
and aprst placements (rows 2 and 3 of its region) succeed; moreover for any
OLMC with an output, a clock term is placed at relative row 1 (bounds
`{row_offset := 1, max_row := 2}`), and for a Registered output with a clock
present, arst goes to row 2, aprst to row 3 and clock to row 1. -/
theorem build_noclk_gal20ra10 (bp : Blueprint) (pre rest : List OLMC) (o : OLMC)
    (t : Term)
    (hchip : bp.chip = Chip.GAL20RA10)
    (holmcs : bp.olmcs = pre ++ o :: rest)
    (hout : o.output = some (PinMode.Registered, t))
    (hclk : o.clock = none)
    (hrun : ∃ g g1 g2,
      set_core_eqns (set_sig bp (GAL.new bp.chip)) bp = Except.ok g ∧
      set_aux_go g pre 0 = Except.ok g1 ∧
      add_term_opt g1 o.arst
        { start_row := 8 * pre.length, max_row := 3, row_offset := 2 } = Except.ok g2 ∧
      (add_term_opt g2 o.aprst
        { start_row := 8 * pre.length, max_row := 4, row_offset := 3 }).isOk = true) :
    build bp = some (Except.error
      { line_num := t.line_num, code := ErrorCode.NoCLK }) ∧
    (∀ (g' : GAL) (o' : OLMC) (rest' : List OLMC) (i : Nat) (pm : PinMode) (t' : Term),
      g'.chip = Chip.GAL20RA10 → o'.output = some (pm, t') → pm ≠ PinMode.Registered →
      set_aux_go g' (o' :: rest') i =
        (match add_term_opt g' o'.clock
            { start_row := 8 * i, max_row := 2, row_offset := 1 } with
         | Except.error e => Except.error e
         | Except.ok ga => set_aux_go ga rest' (i + 1))) ∧
    (∀ (g' : GAL) (o' : OLMC) (rest' : List OLMC) (i : Nat) (t' : Term),
      g'.chip = Chip.GAL20RA10 → o'.output = some (PinMode.Registered, t') →
      o'.clock.isSome = true →
      set_aux_go g' (o' :: rest') i =
        (match add_term_opt g' o'.arst
            { start_row := 8 * i, max_row := 3, row_offset := 2 } with
         | Except.error e => Except.error e
         | Except.ok ga =>
           match add_term_opt ga o'.aprst
               { start_row := 8 * i, max_row := 4, row_offset := 3 } with
           | Except.error e => Except.error e
           | Except.ok gb =>
             match add_term_opt gb o'.clock
                 { start_row := 8 * i, max_row := 2, row_offset := 1 } with
             | Except.error e => Except.error e
             | Except.ok gc => set_aux_go gc rest' (i + 1))) := by
  refine And.intro ?_ (And.intro ?_ ?_)
  · obtain ⟨g, g1, g2, hcore, hpre, ha, hb⟩ := hrun
    rw [hchip] at hcore
    have hchipg : g.chip = Chip.GAL20RA10 :=
      (set_core_go_chipXor bp.olmcs _ 0 g hcore).1
    have hchipg1 : g1.chip = Chip.GAL20RA10 :=
      (set_aux_go_chipXor pre g 0 g1 hpre).1.trans hchipg
    simp only [build, hchip]
    simp only [build_gal20ra10, set_core_eqns]
    rw [show set_core_go (set_sig bp (GAL.new Chip.GAL20RA10)) bp.olmcs 0 = Except.ok g
      from hcore]
    simp only [set_aux_eqns, holmcs]
    rw [set_aux_go_append pre (o :: rest) g 0, hpre]
    simp only [Nat.zero_add]
    rw [set_aux_go_head_noclk g1 o rest pre.length t hchipg1 hout hclk ⟨g2, ha, hb⟩]
  · intro g' o' rest' i pm t' hc' ho' hpm
    have hsome : o'.output.isSome = true := by
      rw [ho']
      rfl
    have hB : get_bounds g'.chip i =
        { start_row := 8 * i, max_row := 8, row_offset := 0 } := by
      rw [hc']
      rfl
    cases pm
    · simp only [set_aux_go, hsome, if_true, hB, ho']
      simp
    · simp only [set_aux_go, hsome, if_true, hB, ho']
      simp
    · exact absurd rfl hpm
  · intro g' o' rest' i t' hc' ho' hck
    have hsome : o'.output.isSome = true := by
      rw [ho']
      rfl
    have hB : get_bounds g'.chip i =
        { start_row := 8 * i, max_row := 8, row_offset := 0 } := by
      rw [hc']
      rfl
    have hnone : o'.clock.isNone = false := by
      cases hcc : o'.clock with
      | none =>
        rw [hcc] at hck
        exact absurd hck (by simp)
      | some ct => rfl
    simp only [set_aux_go, hsome, if_true, hB, ho', hnone]
    simp only [Option.isSome_some, if_true]
    cases add_term_opt g' o'.arst { start_row := 8 * i, max_row := 3, row_offset := 2 } with
    | error e => rfl
    | ok ga =>
      dsimp only
      cases add_term_opt ga o'.aprst
          { start_row := 8 * i, max_row := 4, row_offset := 3 } with
      | error e => rfl
      | ok gb => rfl

/-- A concrete registered OLMC without clock for the C5 witness. -/
def c5O : OLMC :=
  { dOLMC with output := some (PinMode.Registered, { line_num := 5, pins := [[1]] }) }

/-- A concrete GAL20RA10 blueprint for the C5 witness. -/
def c5Bp : Blueprint :=
  { chip := Chip.GAL20RA10, sig := [], olmcs := [] ++ c5O :: [],
    ar := none, sp := none }

/-- Witness for C5 at a concrete blueprint whose only OLMC is registered
without a clock. -/
theorem build_noclk_gal20ra10_witness :
    build c5Bp = some (Except.error { line_num := 5, code := ErrorCode.NoCLK }) ∧
    (∀ (g' : GAL) (o' : OLMC) (rest' : List OLMC) (i : Nat) (pm : PinMode) (t' : Term),
      g'.chip = Chip.GAL20RA10 → o'.output = some (pm, t') → pm ≠ PinMode.Registered →
      set_aux_go g' (o' :: rest') i =
        (match add_term_opt g' o'.clock
            { start_row := 8 * i, max_row := 2, row_offset := 1 } with
         | Except.error e => Except.error e
         | Except.ok ga => set_aux_go ga rest' (i + 1))) ∧
    (∀ (g' : GAL) (o' : OLMC) (rest' : List OLMC) (i : Nat) (t' : Term),
      g'.chip = Chip.GAL20RA10 → o'.output = some (PinMode.Registered, t') →
      o'.clock.isSome = true →
      set_aux_go g' (o' :: rest') i =
        (match add_term_opt g' o'.arst
            { start_row := 8 * i, max_row := 3, row_offset := 2 } with
         | Except.error e => Except.error e
         | Except.ok ga =>
           match add_term_opt ga o'.aprst
               { start_row := 8 * i, max_row := 4, row_offset := 3 } with
           | Except.error e => Except.error e
           | Except.ok gb =>
             match add_term_opt gb o'.clock
                 { start_row := 8 * i, max_row := 2, row_offset := 1 } with
             | Except.error e => Except.error e
             | Except.ok gc => set_aux_go gc rest' (i + 1))) :=
  build_noclk_gal20ra10 c5Bp [] [] c5O { line_num := 5, pins := [[1]] }
    rfl rfl rfl rfl ⟨_, _, _, rfl, rfl, rfl, rfl⟩

/-! ## Signature packing -/

theorem setSigBits_eq (sig : Nat → Bool) (i c k : Nat) :
    setSigBits sig i c k =
      (if i * 8 ≤ k ∧ k < i * 8 + 8 then sigBit c (k - i * 8) else sig k) := by
  have hunfold : setSigBits sig i c k =
      (if k = i * 8 + 7 then sigBit c 7
       else if k = i * 8 + 6 then sigBit c 6
       else if k = i * 8 + 5 then sigBit c 5
       else if k = i * 8 + 4 then sigBit c 4
       else if k = i * 8 + 3 then sigBit c 3
       else if k = i * 8 + 2 then sigBit c 2
       else if k = i * 8 + 1 then sigBit c 1
       else if k = i * 8 + 0 then sigBit c 0
       else sig k) := rfl
  rw [hunfold]
  by_cases hk : i * 8 ≤ k ∧ k < i * 8 + 8
  · rw [if_pos hk]
    obtain ⟨j, hj8, hjk⟩ : ∃ j, j < 8 ∧ k = i * 8 + j := ⟨k - i * 8, by omega, by omega⟩
    subst hjk
    have hsub : i * 8 + j - i * 8 = j := by omega
    rw [hsub]
    interval_cases j <;> simp [Nat.add_left_cancel_iff]
  · rw [if_neg hk]
    iterate 8 rw [if_neg (by omega)]

theorem set_sig_go_eq (bytes : List Nat) :
    ∀ (sig : Nat → Bool) (i k : Nat), i ≤ 8 →
    set_sig_go sig bytes i k =
      (if i * 8 ≤ k ∧ k < min (i + bytes.length) 8 * 8 then
        sigBit (bytes.getD (k / 8 - i) 0) (k % 8)
      else sig k) := by
  induction bytes with
  | nil =>
    intro sig i k hi
    rw [set_sig_go, if_neg (by simp; omega)]
  | cons c rest ih =>
    intro sig i k hi
    rw [set_sig_go]
    by_cases hi8 : i < 8
    · rw [if_pos hi8, ih (setSigBits sig i c) (i + 1) k (by omega)]
      simp only [List.length_cons]
      by_cases hk1 : (i + 1) * 8 ≤ k ∧ k < min (i + 1 + rest.length) 8 * 8
      · rw [if_pos hk1, if_pos (by constructor <;> omega)]
        have h1 : k / 8 - i = (k / 8 - (i + 1)) + 1 := by omega
        rw [h1]
        rfl
      · rw [if_neg hk1, setSigBits_eq]
        by_cases hk2 : i * 8 ≤ k ∧ k < i * 8 + 8
        · rw [if_pos hk2, if_pos (by constructor <;> omega)]
          have hki : k / 8 - i = 0 := by omega
          have hkm : k - i * 8 = k % 8 := by omega
          rw [hki, hkm]
          rfl
        · rw [if_neg hk2, if_neg (by omega)]
    · rw [if_neg hi8, if_neg (by omega)]

/-- Unpack byte `i` of a signature bit plane MSB-first. -/
def unpackByte (sig : Nat → Bool) (i : Nat) : Nat :=
  List.foldl (fun acc j => acc * 2 + (if sig (i * 8 + j) = true then 1 else 0)) 0 idx8

/-- Unpack the eight signature bytes MSB-first. -/
def unpackSig (sig : Nat → Bool) : List Nat :=
  List.map (fun i => unpackByte sig i) idx8

set_option maxRecDepth 4000 in
theorem sigBit_roundtrip : ∀ c, c < 256 →
    List.foldl (fun acc j => acc * 2 + (if sigBit c j = true then 1 else 0)) 0 idx8 = c := by
  decide

theorem unpackByte_congr (sig : Nat → Bool) (i c : Nat)
    (h : ∀ j, j < 8 → sig (i * 8 + j) = sigBit c j) :
    unpackByte sig i =
      List.foldl (fun acc j => acc * 2 + (if sigBit c j = true then 1 else 0)) 0 idx8 := by
  unfold unpackByte
  simp only [idx8, List.foldl_cons, List.foldl_nil]
  rw [h 0 (by omega), h 1 (by omega), h 2 (by omega), h 3 (by omega),
    h 4 (by omega), h 5 (by omega), h 6 (by omega), h 7 (by omega)]

theorem sigBit_zero (j : Nat) : sigBit 0 j = false := by
  simp [sigBit]

theorem idx8_getElem : ∀ (n : Nat) (h : n < idx8.length), idx8[n] = n := by
  intro n h
  have h8 : n < 8 := h
  interval_cases n <;> rfl

/-- Claim C7: `set_sig` writes bit `8i + j` as `(byte_i << j) & 0x80 ≠ 0`
(u8 arithmetic) for every byte index `i < min(len, 8)` and `j < 8`, leaves
all remaining signature bits false, unpacking the signature MSB-first
recovers the byte sequence padded with zero bytes to length 8, and bytes
past the eighth never influence the signature plane. -/
theorem set_sig_spec (bp : Blueprint) :
    (∀ i j, i < min bp.sig.length 8 → j < 8 →
      (set_sig bp (GAL.new bp.chip)).sig (i * 8 + j) =
        ((((bp.sig.getD i 0) % 256) <<< j) &&& 0x80 != 0)) ∧
    (∀ k, 8 * min bp.sig.length 8 ≤ k →
      (set_sig bp (GAL.new bp.chip)).sig k = false) ∧
    ((∀ b ∈ bp.sig, b < 256) →
      unpackSig (set_sig bp (GAL.new bp.chip)).sig =
        bp.sig.take 8 ++ List.replicate (8 - min bp.sig.length 8) 0) ∧
    (∀ gal : GAL, (set_sig bp gal).sig =
      (set_sig { bp with sig := bp.sig.take 8 } gal).sig) := by
  have ha : ∀ i j, i < min bp.sig.length 8 → j < 8 →
      (set_sig bp (GAL.new bp.chip)).sig (i * 8 + j) = sigBit (bp.sig.getD i 0) j := by
    intro i j hi hj
    show set_sig_go (fun _ => false) bp.sig 0 (i * 8 + j) = sigBit (bp.sig.getD i 0) j
    rw [set_sig_go_eq bp.sig (fun _ => false) 0 (i * 8 + j) (by omega),
      if_pos (by constructor <;> omega)]
    have h1 : (i * 8 + j) / 8 - 0 = i := by omega
    have h2 : (i * 8 + j) % 8 = j := by omega
    rw [h1, h2]
  have hb : ∀ k, 8 * min bp.sig.length 8 ≤ k →
      (set_sig bp (GAL.new bp.chip)).sig k = false := by
    intro k hk
    show set_sig_go (fun _ => false) bp.sig 0 k = false
    rw [set_sig_go_eq bp.sig (fun _ => false) 0 k (by omega), if_neg (by omega)]
  refine ⟨ha, hb, ?_, ?_⟩
  · intro hbytes
    have hlenL : (unpackSig (set_sig bp (GAL.new bp.chip)).sig).length = 8 := rfl
    have hlenR :
        (bp.sig.take 8 ++ List.replicate (8 - min bp.sig.length 8) 0).length = 8 := by
      simp only [List.length_append, List.length_take, List.length_replicate]
      omega
    apply List.ext_getElem (hlenL.trans hlenR.symm)
    intro n h1 h2
    have hn8 : n < 8 := by
      rw [hlenL] at h1
      exact h1
    have hL : (unpackSig (set_sig bp (GAL.new bp.chip)).sig)[n] =
        unpackByte (set_sig bp (GAL.new bp.chip)).sig n := by
      show (List.map (fun i => unpackByte (set_sig bp (GAL.new bp.chip)).sig i) idx8)[n] =
        unpackByte (set_sig bp (GAL.new bp.chip)).sig n
      rw [List.getElem_map]
      rw [idx8_getElem n (by exact hn8)]
    rw [hL]
    have htklen : (bp.sig.take 8).length = min bp.sig.length 8 := by
      simp only [List.length_take]
      omega
    by_cases hn : n < min bp.sig.length 8
    · have hnb : n < bp.sig.length := by omega
      have hright : (bp.sig.take 8 ++ List.replicate (8 - min bp.sig.length 8) 0)[n] =
          bp.sig.getD n 0 := by
        rw [List.getElem_append_left (by rw [htklen]; exact hn)]
        have htkn : n < (List.take 8 bp.sig).length := by
          rw [htklen]
          omega
        have e1 : (List.take 8 bp.sig)[n]? = bp.sig[n]? :=
          List.getElem?_take_of_lt (by omega)
        rw [List.getElem?_eq_getElem htkn, List.getElem?_eq_getElem hnb] at e1
        injection e1 with e1
        rw [e1, List.getD_eq_getElem?_getD, List.getElem?_eq_getElem hnb]
        rfl
      rw [hright]
      have hc : bp.sig.getD n 0 < 256 := by
        have : bp.sig.getD n 0 ∈ bp.sig := by
          rw [List.getD_eq_getElem?_getD, List.getElem?_eq_getElem hnb]
          exact List.getElem_mem hnb
        exact hbytes _ this
      rw [unpackByte_congr (set_sig bp (GAL.new bp.chip)).sig n (bp.sig.getD n 0)
        (fun j hj => ha n j hn hj)]
      exact sigBit_roundtrip (bp.sig.getD n 0) hc
    · have hright : (bp.sig.take 8 ++ List.replicate (8 - min bp.sig.length 8) 0)[n] =
          0 := by
        rw [List.getElem_append_right (by omega : (bp.sig.take 8).length ≤ n)]
        exact List.getElem_replicate 0 (by simp [htklen]; omega)
      rw [hright]
      rw [unpackByte_congr (set_sig bp (GAL.new bp.chip)).sig n 0
        (fun j hj => by rw [hb (n * 8 + j) (by omega), sigBit_zero])]
      exact sigBit_roundtrip 0 (by omega)
  · intro gal
    funext k
    show set_sig_go gal.sig bp.sig 0 k = set_sig_go gal.sig (bp.sig.take 8) 0 k
    rw [set_sig_go_eq bp.sig gal.sig 0 k (by omega),
      set_sig_go_eq (bp.sig.take 8) gal.sig 0 k (by omega)]
    have hc : (0 * 8 ≤ k ∧ k < min (0 + bp.sig.length) 8 * 8) ↔
        (0 * 8 ≤ k ∧ k < min (0 + (bp.sig.take 8).length) 8 * 8) := by
      simp only [List.length_take]
      omega
    by_cases hcc : 0 * 8 ≤ k ∧ k < min (0 + bp.sig.length) 8 * 8
    · rw [if_pos hcc, if_pos (hc.mp hcc)]
      have hlt : k / 8 - 0 < 8 := by omega
      have hgd : (bp.sig.take 8).getD (k / 8 - 0) 0 = bp.sig.getD (k / 8 - 0) 0 := by
        rw [List.getD_eq_getElem?_getD, List.getD_eq_getElem?_getD,
          List.getElem?_take_of_lt hlt]
      rw [hgd]
    · rw [if_neg hcc, if_neg (fun hcon => hcc (hc.mpr hcon))]

/-- A concrete blueprint for the C7 witness: two signature bytes. -/
def c7Bp : Blueprint :=
  { chip := Chip.GAL16V8, sig := [65, 66], olmcs := [], ar := none, sp := none }

/-- Witness for C7 at a concrete two-byte signature. -/
theorem set_sig_spec_witness :
    (∀ i j, i < min c7Bp.sig.length 8 → j < 8 →
      (set_sig c7Bp (GAL.new c7Bp.chip)).sig (i * 8 + j) =
        ((((c7Bp.sig.getD i 0) % 256) <<< j) &&& 0x80 != 0)) ∧
    (∀ k, 8 * min c7Bp.sig.length 8 ≤ k →
      (set_sig c7Bp (GAL.new c7Bp.chip)).sig k = false) ∧
    ((∀ b ∈ c7Bp.sig, b < 256) →
      unpackSig (set_sig c7Bp (GAL.new c7Bp.chip)).sig =
        c7Bp.sig.take 8 ++ List.replicate (8 - min c7Bp.sig.length 8) 0) ∧
    (∀ gal : GAL, (set_sig c7Bp gal).sig =
      (set_sig { c7Bp with sig := c7Bp.sig.take 8 } gal).sig) :=
  set_sig_spec c7Bp

/-- A concrete blueprint for the C4 witness: OLMC 0 is a bare feedback
input, OLMC 1 is unused. -/
def c4Bp : Blueprint :=
  { chip := Chip.GAL16V8, sig := [],
    olmcs := [{ dOLMC with feedback := true }, dOLMC], ar := none, sp := none }

/-- Witness for C4 at a concrete blueprint, flag plane and index. -/
theorem build_tristate_flags_spec_witness :
    0 < c4Bp.olmcs.length ∧
    ((build_tristate_flags (fun _ => false) c4Bp true (c4Bp.olmcs.length - 1 - 0) =
      ((((nthD c4Bp.olmcs 0 dOLMC).output.isNone && (nthD c4Bp.olmcs 0 dOLMC).feedback) ||
        (triOutCond (nthD c4Bp.olmcs 0 dOLMC) ||
         (comOutCond (nthD c4Bp.olmcs 0 dOLMC) && true))) ||
       (fun _ => false) (c4Bp.olmcs.length - 1 - 0))) ∧
     (∀ k, c4Bp.olmcs.length ≤ k →
        build_tristate_flags (fun _ => false) c4Bp true k = (fun _ => false) k)) :=
  ⟨by decide, build_tristate_flags_spec (fun _ => false) c4Bp true 0 (by decide)⟩

end Galette

